import Mathlib

/-!
Shallow embedding of the integration-test utilities in
src/txnintegration/utils.py (sawtooth-validator).

The embedded pieces are the StaticNetworkConfig topology generator with its
accessors, the human_size byte formatter, the logging configuration loader
and logger setup, and the StatsCollector and PlatformStats resource sampler.
Python runtime behaviour is made explicit: list indexing wraps negative
indices and raises IndexError otherwise, assert raises AssertionError, a
function body that falls through returns None, and sys.exit terminates the
process.  Machine integers are modelled as Int; float-valued and counter
fields of the resource sampler are modelled as Rat, which represents every
IEEE float value exactly.
-/

/-- Runtime errors raised by the embedded Python code.  The constructor
assertions of StaticNetworkConfig raise AssertionError, which the
specification names InvalidTopologyConfig; list indexing raises IndexError,
which the specification names IndexOutOfRange; ExitError is the exception
class imported from txnintegration.exceptions. -/
inductive PyErr
  | invalidTopologyConfig
  | assertionFailed
  | indexOutOfRange
  | zeroDivisionError
  | exitError (msg : String)
  deriving DecidableEq

/-- Python list indexing l[i]: an index in [0, len) selects directly, an
index in [-len, 0) wraps around to len + i, anything else raises
IndexError. -/
def pyGet {α : Type} (l : List α) (i : Int) : Except PyErr α :=
  if h : 0 ≤ i ∧ i < (l.length : Int) then
    .ok (l.get ⟨i.toNat, by omega⟩)
  else if h2 : -(l.length : Int) ≤ i ∧ i < 0 then
    .ok (l.get ⟨(i + l.length).toNat, by omega⟩)
  else
    .error .indexOutOfRange

/-- Left-to-right evaluation of a Python list comprehension whose element
expressions may raise: the first raised error aborts the whole list. -/
def pyListMap {α β : Type} (f : α → Except PyErr β) : List α → Except PyErr (List β)
  | [] => .ok []
  | a :: l =>
    match f a with
    | .error e => .error e
    | .ok b =>
      match pyListMap f l with
      | .error e => .error e
      | .ok bs => .ok (b :: bs)

/-- Fuel-driven worker for decimal rendering; the fuel n + 1 always
suffices for rendering n. -/
def natToDigitsGo : Nat → Nat → List Char
  | 0, _ => []
  | fuel + 1, n =>
    if n < 10 then [Nat.digitChar n]
    else natToDigitsGo fuel (n / 10) ++ [Nat.digitChar (n % 10)]

/-- Decimal digit list of a natural number, most significant digit first. -/
def natToDigits (n : Nat) : List Char :=
  natToDigitsGo (n + 1) n

/-- Decimal rendering of a natural number, as produced by Python str and by
the format method used for ShortName fields. -/
def pyStr (n : Nat) : String :=
  String.mk (natToDigits n)

/-- Numeric value of a decimal digit character. -/
def digitVal (c : Char) : Nat := c.toNat - 48

/-- Reads a digit list back as a natural number; left inverse of
natToDigits. -/
def parseDigits (l : List Char) : Nat :=
  l.foldl (fun a c => 10 * a + digitVal c) 0

/-- One roster entry of the generated test network, mirroring the dict built
in StaticNetworkConfig.__init__. -/
structure Node where
  ShortName : String
  Identifier : String
  Host : String
  Port : Int
  HttpPort : Int
  deriving DecidableEq

/-- The StaticNetworkConfig object state after a successful constructor
run. -/
structure StaticNetworkConfig where
  n_mag : Int
  q_mag : Int
  keys : List String
  nodes : List Node
  use_quorum : Bool
  deriving DecidableEq

/-- StaticNetworkConfig.__init__.  The pybitcointools key generator is
modelled by the indexed generator gen_key standing for the successive
return values of generate_private_key, and wif_addr models
get_address_from_private_key_wif.  The three constructor asserts raise
before any key or roster entry is built, so a failed construction yields
no object at all. -/
def StaticNetworkConfig.init (gen_key : Nat → String) (wif_addr : String → String)
    (n : Int) (q : Option Int) (base_name : String)
    (base_port base_http_port : Int) (use_quorum : Bool) :
    Except PyErr StaticNetworkConfig :=
  if ¬ (1 ≤ n) then .error .invalidTopologyConfig
  else
    let q_mag := q.getD n
    if ¬ (1 ≤ q_mag) then .error .invalidTopologyConfig
    else if ¬ (q_mag ≤ n) then .error .invalidTopologyConfig
    else
      let keys := (List.range n.toNat).map gen_key
      let nodes := keys.enum.map (fun p =>
        { ShortName := base_name ++ "-" ++ pyStr p.1
          Identifier := wif_addr p.2
          Host := "localhost"
          Port := base_port + (p.1 : Int)
          HttpPort := base_http_port + (p.1 : Int) })
      .ok { n_mag := n, q_mag := q_mag, keys := keys, nodes := nodes,
            use_quorum := use_quorum }

/-- StaticNetworkConfig.get_nodes. -/
def StaticNetworkConfig.get_nodes (cfg : StaticNetworkConfig) : List Node :=
  cfg.nodes

/-- StaticNetworkConfig.get_quorum.  When use_quorum is false the Python
body assigns peers = dfl but then falls off the end of the function, so the
call returns None, modelled as Except.ok Option.none.  When use_quorum is
true the body asserts that the ShortNames are pairwise distinct and then
windows q_mag entries cyclically around the roster. -/
def StaticNetworkConfig.get_quorum (cfg : StaticNetworkConfig) (tgt : Int)
    (dfl : Option (List String)) : Except PyErr (Option (List String)) :=
  let _dfl := dfl.getD []
  if cfg.use_quorum then
    let peers := cfg.nodes.map Node.ShortName
    if peers.Nodup then
      match pyListMap (fun i : Nat =>
          if cfg.n_mag = 0 then .error .zeroDivisionError
          else pyGet peers ((tgt + (i : Int)) % cfg.n_mag))
          (List.range cfg.q_mag.toNat) with
      | .error e => .error e
      | .ok l => .ok (some l)
    else .error .assertionFailed
  else .ok none

/-- StaticNetworkConfig.get_node. -/
def StaticNetworkConfig.get_node (cfg : StaticNetworkConfig) (idx : Int) :
    Except PyErr Node :=
  pyGet cfg.nodes idx

/-- StaticNetworkConfig.get_key. -/
def StaticNetworkConfig.get_key (cfg : StaticNetworkConfig) (idx : Int) :
    Except PyErr String :=
  pyGet cfg.keys idx

/-- Roster entry built for position idx by the constructor. -/
def nodeAt (gen_key : Nat → String) (wif_addr : String → String)
    (base_name : String) (base_port base_http_port : Int) (idx : Nat) : Node :=
  { ShortName := base_name ++ "-" ++ pyStr idx
    Identifier := wif_addr (gen_key idx)
    Host := "localhost"
    Port := base_port + (idx : Int)
    HttpPort := base_http_port + (idx : Int) }

/-- Value of a successful construction, in indexed form. -/
def builtConfig (gen_key : Nat → String) (wif_addr : String → String)
    (n : Int) (q : Option Int) (base_name : String)
    (base_port base_http_port : Int) (use_quorum : Bool) : StaticNetworkConfig :=
  { n_mag := n, q_mag := q.getD n,
    keys := (List.range n.toNat).map gen_key,
    nodes := (List.range n.toNat).map
      (nodeAt gen_key wif_addr base_name base_port base_http_port),
    use_quorum := use_quorum }

/-- The module-level suffixes list used by human_size. -/
def suffixes : List String := ["B", "KB", "MB", "GB", "TB", "PB"]

/-- Fuel-driven worker for the while loop of human_size; the fuel
suffixes.length - 1 - i always suffices, because every iteration increments
i and the guard requires i < suffixes.length - 1. -/
def human_size_go : Nat → ℚ → Nat → ℚ × Nat
  | 0, nbytes, i => (nbytes, i)
  | fuel + 1, nbytes, i =>
    if 1024 ≤ nbytes ∧ i < suffixes.length - 1 then
      human_size_go fuel (nbytes / 1024) (i + 1)
    else (nbytes, i)

/-- The while loop of human_size: repeatedly divide by 1024 and advance the
suffix index while the guard holds.  Python float division is modelled by
exact division on Rat. -/
def human_size_loop (nbytes : ℚ) (i : Nat) : ℚ × Nat :=
  human_size_go (suffixes.length - 1 - i) nbytes i

/-- human_size.  The fmt parameter abstracts the float formatting
expression, which renders the scaled value with two decimals and strips
trailing zeros; the embedding only fixes that the result is the formatted
value, a space, and the selected suffix. -/
def human_size (fmt : ℚ → String) (nbytes : ℚ) : String :=
  if nbytes = 0 then "0 B"
  else
    let r := human_size_loop nbytes 0
    fmt r.1 ++ " " ++ suffixes.getD r.2 ""

/-- Worker for pySplitDot, splitting a character list at every dot. -/
def pySplitDotGo : List Char → List (List Char)
  | [] => [[]]
  | c :: cs =>
    match pySplitDotGo cs with
    | [] => [[]]
    | w :: ws => if c = '.' then [] :: w :: ws else (c :: w) :: ws

/-- Python str.split with separator dot, as used by load_log_config to take
the file extension. -/
def pySplitDot (s : String) : List String :=
  (pySplitDotGo s.data).map String.mk

/-- The subset of the logging configuration dict read by setup_loggers. -/
structure LogConfig where
  LogLevel : Option String
  LogFile : Option String

/-- Observable outcome of setup_loggers: which handler was installed with
which severity, or process termination via sys.exit. -/
inductive LoggerSetup
  | fileHandler (path : String) (rootLevel : Int)
  | consoleHandler (rootLevel handlerLevel : Int)
  | exited (code : Int)
  deriving DecidableEq

/-- Numeric value of logging.WARN. -/
def logWARN : Int := 30

/-- setup_loggers.  The getattr lookup on the logging module is modelled by
level_of, os.path.isdir by isdir and os.path.dirname by dirname.  A LogFile
entry other than the literal __screen__ whose parent directory does not
exist makes the function call sys.exit(-1). -/
def setup_loggers (level_of : String → Int) (isdir : String → Bool)
    (dirname : String → String) (config : LogConfig) : LoggerSetup :=
  let loglevel := match config.LogLevel with
    | some name => level_of name
    | none => logWARN
  match config.LogFile with
  | some logfile =>
    if logfile ≠ "__screen__" then
      if isdir (dirname logfile) then .fileHandler logfile loglevel
      else .exited (-1)
    else .consoleHandler loglevel loglevel
  | none => .consoleHandler loglevel loglevel

/-- load_log_config.  File reading and parsing is modelled by the json_load
and yaml_load parameters, whose error value stands for a raised IOError
message; the extension dispatch on the last dot-separated component of the
file name is the code under verification. -/
def load_log_config {α : Type} (json_load yaml_load : String → Except String α)
    (log_config_file : String) : Except PyErr α :=
  if (pySplitDot log_config_file).getLastD "" = "js" then
    match json_load log_config_file with
    | .ok d => .ok d
    | .error ex => .error (.exitError ("Could not read log config: " ++ ex))
  else if (pySplitDot log_config_file).getLastD "" = "yaml" then
    match yaml_load log_config_file with
    | .ok d => .ok d
    | .error ex => .error (.exitError ("Could not read log config: " ++ ex))
  else
    .error (.exitError ("LogConfigFile type not supported: " ++ log_config_file))

/-- One stats group: the name of the namedtuple type and its _asdict
field view. -/
structure Stat where
  name : String
  fields : List (String × ℚ)
  deriving DecidableEq

/-- The psutil.net_io_counters() reading, with the two byte counters that
get_stats consumes explicitly and the remaining fields opaque. -/
structure NetSample where
  bytes_sent : ℚ
  bytes_recv : ℚ
  rest : List (String × ℚ)
  deriving DecidableEq

/-- The snetio namedtuple as a stats group. -/
def NetSample.toStat (ns : NetSample) : Stat :=
  { name := "snetio"
    fields := [("bytes_sent", ns.bytes_sent), ("bytes_recv", ns.bytes_recv)]
      ++ ns.rest }

/-- The scpu namedtuple declared at module level in utils.py. -/
def CpuStats (percent user_time system_time idle_time : ℚ) : Stat :=
  { name := "scpu"
    fields := [("percent", percent), ("user_time", user_time),
               ("system_time", system_time), ("idle_time", idle_time)] }

/-- One reading of all psutil counters consumed by a get_stats call. -/
structure Sample where
  cpu_percent : ℚ
  cpu_user : ℚ
  cpu_system : ℚ
  cpu_idle : ℚ
  vmem_fields : List (String × ℚ)
  disk_fields : List (String × ℚ)
  net : NetSample
  deriving DecidableEq

/-- Mutable attribute state of a PlatformStats object. -/
structure PlatformStatsState where
  statslist : List Stat
  cpu_stats : Stat
  vmem_stats : Stat
  disk_stats : Stat
  net_stats : NetSample
  interval_net_bytes_sent : ℚ
  interval_net_bytes_recv : ℚ
  previous_net_bytes_sent : ℚ
  previous_net_bytes_recv : ℚ
  deriving DecidableEq

/-- PlatformStats.get_stats: rebuilds every snapshot and the whole
statslist from the fresh psutil reading and computes the interval deltas
against the previous byte counters. -/
def PlatformStats.get_stats (self : PlatformStatsState) (s : Sample) :
    PlatformStatsState :=
  let cpu_stats := CpuStats s.cpu_percent s.cpu_user s.cpu_system s.cpu_idle
  let vmem_stats : Stat := { name := "svmem", fields := s.vmem_fields }
  let disk_stats : Stat := { name := "sdiskio", fields := s.disk_fields }
  let net_stats := s.net
  { statslist := [cpu_stats, vmem_stats, disk_stats, net_stats.toStat]
    cpu_stats := cpu_stats
    vmem_stats := vmem_stats
    disk_stats := disk_stats
    net_stats := net_stats
    interval_net_bytes_sent := net_stats.bytes_sent - self.previous_net_bytes_sent
    interval_net_bytes_recv := net_stats.bytes_recv - self.previous_net_bytes_recv
    previous_net_bytes_sent := net_stats.bytes_sent
    previous_net_bytes_recv := net_stats.bytes_recv }

/-- PlatformStats.__init__: zero the interval and previous counters, then
run get_stats once on the first reading. -/
def PlatformStats.initState (s : Sample) : PlatformStatsState :=
  PlatformStats.get_stats
    { statslist := []
      cpu_stats := { name := "", fields := [] }
      vmem_stats := { name := "", fields := [] }
      disk_stats := { name := "", fields := [] }
      net_stats := { bytes_sent := 0, bytes_recv := 0, rest := [] }
      interval_net_bytes_sent := 0
      interval_net_bytes_recv := 0
      previous_net_bytes_sent := 0
      previous_net_bytes_recv := 0 } s

/-- StatsCollector.get_data_as_dict.  The source iterates statslist, keys
each entry by the namedtuple type name of stat, but reads the value from
self.cpu_stats._asdict() rather than stat._asdict(). -/
def StatsCollector.get_data_as_dict (self : PlatformStatsState) :
    List (String × List (String × ℚ)) :=
  self.statslist.map (fun stat => (stat.name, self.cpu_stats.fields))

/-- Deterministic stand-in for the random WIF key generator, used in
concrete evaluations. -/
def demoKey (i : Nat) : String := "WIF-" ++ pyStr i

/-- Deterministic stand-in for the WIF-to-address derivation, used in
concrete evaluations. -/
def demoAddr (w : String) : String := "ADDR-" ++ w

/-- A concrete first psutil reading with 100 bytes sent. -/
def demoSampleA : Sample :=
  { cpu_percent := 1, cpu_user := 2, cpu_system := 3, cpu_idle := 4
    vmem_fields := [("total", 7), ("available", 5)]
    disk_fields := [("read_count", 9)]
    net := { bytes_sent := 100, bytes_recv := 20, rest := [] } }

/-- A concrete second psutil reading with 150 bytes sent. -/
def demoSampleB : Sample :=
  { demoSampleA with net := { bytes_sent := 150, bytes_recv := 30, rest := [] } }

/-- The cpu field view of demoSampleA. -/
def demoCpuFields : List (String × ℚ) :=
  [("percent", 1), ("user_time", 2), ("system_time", 3), ("idle_time", 4)]

lemma digitVal_digitChar (k : Nat) (h : k < 10) : digitVal (Nat.digitChar k) = k := by
  interval_cases k <;> rfl

lemma foldl_digits_append (a : Nat) (xs : List Char) (c : Char) :
    List.foldl (fun a c => 10 * a + digitVal c) a (xs ++ [c])
      = 10 * List.foldl (fun a c => 10 * a + digitVal c) a xs + digitVal c := by
  rw [List.foldl_append]
  rfl

lemma parseDigits_natToDigitsGo (fuel : Nat) :
    ∀ n : Nat, n < fuel → parseDigits (natToDigitsGo fuel n) = n := by
  induction fuel with
  | zero => intro n h; omega
  | succ f ih =>
    intro n h
    by_cases h10 : n < 10
    · simp only [natToDigitsGo, if_pos h10, parseDigits, List.foldl]
      rw [digitVal_digitChar n h10]
      omega
    · have hpos : 0 < n := by omega
      have hdiv : n / 10 < n := Nat.div_lt_self hpos (by omega)
      have hfuel : n / 10 < f := by omega
      simp only [natToDigitsGo, if_neg h10, parseDigits]
      rw [foldl_digits_append]
      have hmod : n % 10 < 10 := Nat.mod_lt n (by omega)
      rw [digitVal_digitChar _ hmod]
      have := ih (n / 10) hfuel
      simp only [parseDigits] at this
      rw [this]
      omega

lemma natToDigits_injective : Function.Injective natToDigits := by
  intro a b h
  have ha := parseDigits_natToDigitsGo (a + 1) a (by omega)
  have hb := parseDigits_natToDigitsGo (b + 1) b (by omega)
  simp only [natToDigits] at h
  rw [← ha, ← hb, h]

lemma pyStr_injective : Function.Injective pyStr := fun _ _ h =>
  natToDigits_injective (congrArg String.data h)

lemma enum_range_map {α : Type} (g : Nat → α) (k : Nat) :
    ((List.range k).map g).enum = (List.range k).map (fun i => (i, g i)) := by
  apply List.ext_getElem
  · simp
  · intro i h1 h2
    simp [List.getElem_enum]

lemma init_ok_intro (gen_key : Nat → String) (wif_addr : String → String)
    (n : Int) (q : Option Int) (base_name : String)
    (base_port base_http_port : Int) (use_quorum : Bool)
    (h1 : 1 ≤ n) (h2 : 1 ≤ q.getD n) (h3 : q.getD n ≤ n) :
    StaticNetworkConfig.init gen_key wif_addr n q base_name base_port
        base_http_port use_quorum =
      .ok (builtConfig gen_key wif_addr n q base_name base_port
        base_http_port use_quorum) := by
  unfold StaticNetworkConfig.init
  rw [if_neg (not_not_intro h1)]
  dsimp only
  rw [if_neg (not_not_intro h2), if_neg (not_not_intro h3)]
  unfold builtConfig
  congr 1
  rw [enum_range_map, List.map_map]
  rfl

lemma init_ok_elim (gen_key : Nat → String) (wif_addr : String → String)
    (n : Int) (q : Option Int) (base_name : String)
    (base_port base_http_port : Int) (use_quorum : Bool)
    (cfg : StaticNetworkConfig)
    (hc : StaticNetworkConfig.init gen_key wif_addr n q base_name base_port
        base_http_port use_quorum = .ok cfg) :
    1 ≤ n ∧ 1 ≤ q.getD n ∧ q.getD n ≤ n ∧
      cfg = builtConfig gen_key wif_addr n q base_name base_port
        base_http_port use_quorum := by
  by_cases h1 : 1 ≤ n
  · by_cases h2 : 1 ≤ q.getD n
    · by_cases h3 : q.getD n ≤ n
      · refine ⟨h1, h2, h3, ?_⟩
        rw [init_ok_intro gen_key wif_addr n q base_name base_port
          base_http_port use_quorum h1 h2 h3] at hc
        exact (Except.ok.injEq _ _).mp hc |>.symm
      · unfold StaticNetworkConfig.init at hc
        rw [if_neg (not_not_intro h1)] at hc
        dsimp only at hc
        rw [if_neg (not_not_intro h2), if_pos h3] at hc
        exact Except.noConfusion hc
    · unfold StaticNetworkConfig.init at hc
      rw [if_neg (not_not_intro h1)] at hc
      dsimp only at hc
      rw [if_pos h2] at hc
      exact Except.noConfusion hc
  · unfold StaticNetworkConfig.init at hc
    rw [if_pos h1] at hc
    exact Except.noConfusion hc

lemma pyGet_in_range {α : Type} (l : List α) (e : Int) (h0 : 0 ≤ e)
    (h1 : e < (l.length : Int)) :
    pyGet l e = .ok (l.get ⟨e.toNat, by omega⟩) := by
  unfold pyGet
  rw [dif_pos ⟨h0, h1⟩]

lemma pyGet_oob {α : Type} (l : List α) (i : Int)
    (h : i < -(l.length : Int) ∨ (l.length : Int) ≤ i) :
    pyGet l i = .error .indexOutOfRange := by
  unfold pyGet
  rw [dif_neg (by omega), dif_neg (by omega)]

lemma pyGet_wrap {α : Type} (l : List α) (i : Int)
    (h1 : -(l.length : Int) ≤ i) (h2 : i < 0) :
    pyGet l i = pyGet l (i + l.length) := by
  unfold pyGet
  rw [dif_neg (by omega), dif_pos ⟨h1, h2⟩, dif_pos (by omega)]

lemma pyListMap_ok {α β : Type} (f : α → Except PyErr β) (g : α → β)
    (l : List α) (h : ∀ a ∈ l, f a = .ok (g a)) :
    pyListMap f l = .ok (l.map g) := by
  induction l with
  | nil => rfl
  | cons a l ih =>
    have ha := h a (by simp)
    have hl : ∀ x ∈ l, f x = .ok (g x) := fun x hx => h x (by simp [hx])
    simp [pyListMap, ha, ih hl]

lemma shortName_inj (bn : String) :
    Function.Injective (fun idx : Nat => bn ++ "-" ++ pyStr idx) := by
  intro a b h
  have hd := congrArg String.data h
  simp only [String.data_append] at hd
  exact natToDigits_injective (List.append_cancel_left hd)

lemma shortNames_nodup (bn : String) (k : Nat) :
    ((List.range k).map (fun idx => bn ++ "-" ++ pyStr idx)).Nodup :=
  (List.nodup_range k).map (shortName_inj bn)

lemma builtConfig_peers (gen_key : Nat → String) (wif_addr : String → String)
    (n : Int) (q : Option Int) (base_name : String)
    (base_port base_http_port : Int) (use_quorum : Bool) :
    (builtConfig gen_key wif_addr n q base_name base_port base_http_port
        use_quorum).nodes.map Node.ShortName
      = (List.range n.toNat).map (fun idx => base_name ++ "-" ++ pyStr idx) := by
  simp only [builtConfig, List.map_map]
  rfl

lemma get_quorum_built_true (gen_key : Nat → String) (wif_addr : String → String)
    (n : Int) (q : Option Int) (base_name : String)
    (base_port base_http_port : Int) (hn : 1 ≤ n) (tgt : Int)
    (dfl : Option (List String)) :
    (builtConfig gen_key wif_addr n q base_name base_port base_http_port
        true).get_quorum tgt dfl
      = .ok (some ((List.range (q.getD n).toNat).map
          (fun (i : Nat) => base_name ++ "-" ++ pyStr ((tgt + (i : Int)) % n).toNat))) := by
  have hpeers := builtConfig_peers gen_key wif_addr n q base_name base_port
    base_http_port true
  unfold StaticNetworkConfig.get_quorum
  simp only [builtConfig] at hpeers ⊢
  rw [if_true]
  rw [hpeers, if_pos (shortNames_nodup base_name n.toNat)]
  have hmap : pyListMap (fun i : Nat =>
      if (n : Int) = 0 then .error PyErr.zeroDivisionError
      else pyGet ((List.range n.toNat).map
        (fun idx => base_name ++ "-" ++ pyStr idx)) ((tgt + (i : Int)) % n))
      (List.range (q.getD n).toNat)
      = .ok ((List.range (q.getD n).toNat).map
          (fun (i : Nat) => base_name ++ "-" ++ pyStr ((tgt + (i : Int)) % n).toNat)) := by
    apply pyListMap_ok
    intro i _
    rw [if_neg (by omega)]
    have hlen : ((((List.range n.toNat).map
        (fun idx => base_name ++ "-" ++ pyStr idx)).length : Int))
        = n := by
      simp only [List.length_map, List.length_range]
      omega
    have h0 : 0 ≤ (tgt + (i : Int)) % n := Int.emod_nonneg _ (by omega)
    have h1 : (tgt + (i : Int)) % n < n := Int.emod_lt_of_pos _ (by omega)
    rw [pyGet_in_range _ _ h0 (by rw [hlen]; exact h1)]
    congr 1
    have hidx : ((tgt + (i : Int)) % n).toNat < n.toNat := by omega
    simp [List.get_eq_getElem, List.getElem_map, List.getElem_range]
  rw [hmap]

lemma get_quorum_false (cfg : StaticNetworkConfig) (h : cfg.use_quorum = false)
    (tgt : Int) (dfl : Option (List String)) :
    cfg.get_quorum tgt dfl = .ok none := by
  simp [StaticNetworkConfig.get_quorum, h]

lemma int_add_emod_toNat (t : Int) (i : Nat) (n : Int) (h0 : 0 ≤ t) (hn : 1 ≤ n) :
    ((t + (i : Int)) % n).toNat = (t.toNat + i) % n.toNat := by
  have ht : t = ((t.toNat : Nat) : Int) := by omega
  have hnn : n = ((n.toNat : Nat) : Int) := by omega
  rw [ht, hnn, ← Int.natCast_add, ← Int.natCast_mod]
  simp only [Int.toNat_natCast]

/-- The fuel-driven loop satisfies the stepping equation of the Python
while loop of human_size. -/
lemma human_size_loop_eq (nbytes : ℚ) (i : Nat) :
    human_size_loop nbytes i =
      if 1024 ≤ nbytes ∧ i < suffixes.length - 1 then
        human_size_loop (nbytes / 1024) (i + 1)
      else (nbytes, i) := by
  have h6 : suffixes.length = 6 := rfl
  unfold human_size_loop
  by_cases hc : 1024 ≤ nbytes ∧ i < suffixes.length - 1
  · rw [if_pos hc]
    have hlen : suffixes.length - 1 - i = (suffixes.length - 1 - (i + 1)) + 1 := by
      omega
    rw [hlen]
    simp only [human_size_go]
    rw [if_pos hc]
  · rw [if_neg hc]
    cases hf : suffixes.length - 1 - i with
    | zero => rfl
    | succ f =>
      simp only [human_size_go]
      rw [if_neg hc]

lemma human_size_go_index_lt (fuel : Nat) :
    ∀ (nb : ℚ) (i : Nat), i < suffixes.length →
      (human_size_go fuel nb i).2 < suffixes.length := by
  have h6 : suffixes.length = 6 := rfl
  induction fuel with
  | zero => intro nb i h; exact h
  | succ f ih =>
    intro nb i h
    simp only [human_size_go]
    by_cases hc : 1024 ≤ nb ∧ i < suffixes.length - 1
    · rw [if_pos hc]
      exact ih _ _ (by omega)
    · rw [if_neg hc]
      exact h

/-- C1 bug evidence: on a topology built with use_quorum = false, get_quorum
with an explicit fallback list returns None, not the fallback; the claimed
identity property fails because the Python body never returns peers. -/
theorem get_quorum_fallback_bug :
    (StaticNetworkConfig.init demoKey demoAddr 2 (some 1) "validator" 9000 8000
        false).bind (fun cfg => cfg.get_quorum 0 (some ["peer-a"]))
      = .ok none ∧
    (Except.ok (some ["peer-a"]) : Except PyErr (Option (List String)))
      ≠ .ok none := by
  constructor
  · rw [init_ok_intro demoKey demoAddr 2 (some 1) "validator" 9000 8000 false
      (by decide) (by decide) (by decide)]
    rfl
  · intro h
    exact Option.noConfusion (Except.ok.inj h)

/-- C3: construction fails with the InvalidTopologyConfig error whenever
n < 1 or q < 1 or q > n, and no partially built topology is observable,
because the failing run returns no StaticNetworkConfig value at all. -/
theorem init_invalid_config (gen_key : Nat → String) (wif_addr : String → String)
    (n q : Int) (base_name : String) (base_port base_http_port : Int)
    (use_quorum : Bool) (h : n < 1 ∨ q < 1 ∨ n < q) :
    StaticNetworkConfig.init gen_key wif_addr n (some q) base_name base_port
        base_http_port use_quorum = .error .invalidTopologyConfig := by
  unfold StaticNetworkConfig.init
  by_cases h1 : 1 ≤ n
  · rw [if_neg (not_not_intro h1)]
    dsimp only
    simp only [Option.getD_some]
    by_cases h2 : 1 ≤ q
    · rw [if_neg (not_not_intro h2), if_pos (by omega : ¬ q ≤ n)]
    · rw [if_pos h2]
  · rw [if_pos h1]

/-- C3 witness: construction with n = 0 and q = 1 fails with
InvalidTopologyConfig. -/
theorem init_invalid_config_witness :
    ((0 : Int) < 1 ∨ (1 : Int) < 1 ∨ (0 : Int) < 1) ∧
    StaticNetworkConfig.init demoKey demoAddr 0 (some 1) "validator" 9000 8000
        false = .error .invalidTopologyConfig :=
  ⟨Or.inl (by decide),
   init_invalid_config demoKey demoAddr 0 1 "validator" 9000 8000 false
     (Or.inl (by decide))⟩

/-- C6: constructing with n = 4, q = 2, base ports 9000 and 8000 and base
name validator yields the roster validator-0 .. validator-3 with ports
9000 .. 9003 and 8000 .. 8003, and get_quorum at target index 2 in
full-membership mode returns exactly validator-2 followed by validator-3. -/
theorem construct_example_topology (gen_key : Nat → String)
    (wif_addr : String → String) :
    ∃ cfg, StaticNetworkConfig.init gen_key wif_addr 4 (some 2) "validator"
        9000 8000 true = .ok cfg ∧
      cfg.nodes.map Node.ShortName
        = ["validator-0", "validator-1", "validator-2", "validator-3"] ∧
      cfg.nodes.map Node.Port = [9000, 9001, 9002, 9003] ∧
      cfg.nodes.map Node.HttpPort = [8000, 8001, 8002, 8003] ∧
      cfg.get_quorum 2 none = .ok (some ["validator-2", "validator-3"]) := by
  refine ⟨builtConfig gen_key wif_addr 4 (some 2) "validator" 9000 8000 true,
    init_ok_intro _ _ _ _ _ _ _ _ (by decide) (by decide) (by decide),
    ?_, ?_, ?_, ?_⟩
  · rw [builtConfig_peers]
    rfl
  · simp only [builtConfig, List.map_map]
    rfl
  · simp only [builtConfig, List.map_map]
    rfl
  · rw [get_quorum_built_true gen_key wif_addr 4 (some 2) "validator" 9000 8000
      (by decide) 2 none]
    rfl

/-- C5: for every n at least 1 and q with 1 at most q at most n,
construction succeeds with a roster of exactly n nodes and an index-aligned
key list of n entries, the nodes being exactly the indexed entries with
ShortName base-index, Port base_port + index and HttpPort
base_http_port + index, and the short names, ports and http ports are
pairwise distinct. -/
theorem construct_valid_roster (gen_key : Nat → String)
    (wif_addr : String → String) (n q : Int) (base_name : String)
    (base_port base_http_port : Int) (use_quorum : Bool)
    (h1 : 1 ≤ n) (h2 : 1 ≤ q) (h3 : q ≤ n) :
    ∃ cfg, StaticNetworkConfig.init gen_key wif_addr n (some q) base_name
        base_port base_http_port use_quorum = .ok cfg ∧
      cfg.nodes.length = n.toNat ∧
      cfg.keys.length = n.toNat ∧
      cfg.nodes = (List.range n.toNat).map
        (nodeAt gen_key wif_addr base_name base_port base_http_port) ∧
      (cfg.nodes.map Node.ShortName).Nodup ∧
      (cfg.nodes.map Node.Port).Nodup ∧
      (cfg.nodes.map Node.HttpPort).Nodup := by
  refine ⟨builtConfig gen_key wif_addr n (some q) base_name base_port
      base_http_port use_quorum,
    init_ok_intro _ _ _ _ _ _ _ _ h1 (by simpa using h2) (by simpa using h3),
    ?_, ?_, rfl, ?_, ?_, ?_⟩
  · simp [builtConfig]
  · simp [builtConfig]
  · rw [builtConfig_peers]
    exact shortNames_nodup _ _
  · simp only [builtConfig, List.map_map]
    exact (List.nodup_range _).map (fun a b hab => by
      simp only [Function.comp, nodeAt] at hab
      omega)
  · simp only [builtConfig, List.map_map]
    exact (List.nodup_range _).map (fun a b hab => by
      simp only [Function.comp, nodeAt] at hab
      omega)

/-- C5 witness: the roster invariants hold for the concrete construction
with n = 3 and q = 2. -/
theorem construct_valid_roster_witness :
    ∃ cfg, StaticNetworkConfig.init demoKey demoAddr 3 (some 2) "validator"
        9000 8000 false = .ok cfg ∧
      cfg.nodes.length = (3 : Int).toNat ∧
      cfg.keys.length = (3 : Int).toNat ∧
      cfg.nodes = (List.range (3 : Int).toNat).map
        (nodeAt demoKey demoAddr "validator" 9000 8000) ∧
      (cfg.nodes.map Node.ShortName).Nodup ∧
      (cfg.nodes.map Node.Port).Nodup ∧
      (cfg.nodes.map Node.HttpPort).Nodup :=
  construct_valid_roster demoKey demoAddr 3 2 "validator" 9000 8000 false
    (by decide) (by decide) (by decide)

/-- C4: on a topology constructed with valid n and q in full-membership
mode, get_quorum at any target index in [0, n) returns exactly the q short
names peers[(targetIndex + i) mod n] for i in [0, q), the first entry being
the short name of the target itself, every entry a roster short name, and
the q entries pairwise distinct. -/
theorem get_quorum_full_membership (gen_key : Nat → String)
    (wif_addr : String → String) (n q : Int) (base_name : String)
    (base_port base_http_port : Int) (cfg : StaticNetworkConfig)
    (hinit : StaticNetworkConfig.init gen_key wif_addr n (some q) base_name
        base_port base_http_port true = .ok cfg)
    (tgt : Int) (h0 : 0 ≤ tgt) (hlt : tgt < n) (dfl : Option (List String)) :
    ∃ l : List String,
      cfg.get_quorum tgt dfl = .ok (some l) ∧
      l = (List.range q.toNat).map
        (fun (i : Nat) => base_name ++ "-" ++ pyStr ((tgt.toNat + i) % n.toNat)) ∧
      (l.length : Int) = q ∧
      l.head? = some (base_name ++ "-" ++ pyStr tgt.toNat) ∧
      (∀ x ∈ l, x ∈ cfg.nodes.map Node.ShortName) ∧
      l.Nodup := by
  obtain ⟨h1, h2, h3, hcfg⟩ := init_ok_elim _ _ _ _ _ _ _ _ _ hinit
  simp only [Option.getD_some] at h2 h3
  subst hcfg
  have hquo := get_quorum_built_true gen_key wif_addr n (some q) base_name
    base_port base_http_port h1 tgt dfl
  simp only [Option.getD_some] at hquo
  have hfun : ∀ i : Nat, ((tgt + (i : Int)) % n).toNat = (tgt.toNat + i) % n.toNat :=
    fun i => int_add_emod_toNat tgt i n h0 h1
  have hlist : (List.range q.toNat).map
        (fun (i : Nat) => base_name ++ "-" ++ pyStr ((tgt + (i : Int)) % n).toNat)
      = (List.range q.toNat).map
        (fun (i : Nat) => base_name ++ "-" ++ pyStr ((tgt.toNat + i) % n.toNat)) := by
    congr 1
    funext i
    rw [hfun i]
  refine ⟨_, hquo, hlist, ?_, ?_, ?_, ?_⟩
  · simp only [List.length_map, List.length_range]
    omega
  · have hq1 : q.toNat = (q.toNat - 1) + 1 := by omega
    rw [hq1, List.range_succ_eq_map]
    simp only [List.map_cons, List.head?_cons]
    have hz : ((tgt + ((0 : Nat) : Int)) % n).toNat = tgt.toNat := by
      rw [Nat.cast_zero, add_zero, Int.emod_eq_of_lt h0 hlt]
    rw [hz]
  · intro x hx
    rw [builtConfig_peers]
    rw [List.mem_map] at hx
    obtain ⟨i, _, rfl⟩ := hx
    rw [List.mem_map]
    refine ⟨((tgt + (i : Int)) % n).toNat, ?_, rfl⟩
    rw [List.mem_range]
    have hb0 : 0 ≤ (tgt + (i : Int)) % n := Int.emod_nonneg _ (by omega)
    have hb1 : (tgt + (i : Int)) % n < n := Int.emod_lt_of_pos _ (by omega)
    omega
  · rw [hlist]
    apply List.Nodup.map_on ?_ (List.nodup_range _)
    intro i hi j hj heq
    have hm := shortName_inj base_name heq
    have hi' : i < q.toNat := List.mem_range.mp hi
    have hj' : j < q.toNat := List.mem_range.mp hj
    have hqn : q.toNat ≤ n.toNat := by omega
    have hmod : tgt.toNat + i ≡ tgt.toNat + j [MOD n.toNat] := hm
    have hij : i ≡ j [MOD n.toNat] := Nat.ModEq.add_left_cancel' tgt.toNat hmod
    have hij' : i % n.toNat = j % n.toNat := hij
    rw [Nat.mod_eq_of_lt (by omega), Nat.mod_eq_of_lt (by omega)] at hij'
    exact hij'

/-- C4 witness: the full-membership quorum properties instantiated on the
concrete n = 4, q = 2 topology at target index 2. -/
theorem get_quorum_full_membership_witness :
    ∃ l : List String,
      (builtConfig demoKey demoAddr 4 (some 2) "validator" 9000 8000
          true).get_quorum 2 none = .ok (some l) ∧
      l = (List.range (2 : Int).toNat).map
        (fun (i : Nat) => "validator" ++ "-"
          ++ pyStr (((2 : Int).toNat + i) % (4 : Int).toNat)) ∧
      (l.length : Int) = 2 ∧
      l.head? = some ("validator" ++ "-" ++ pyStr (2 : Int).toNat) ∧
      (∀ x ∈ l, x ∈ (builtConfig demoKey demoAddr 4 (some 2) "validator"
          9000 8000 true).nodes.map Node.ShortName) ∧
      l.Nodup :=
  get_quorum_full_membership demoKey demoAddr 4 2 "validator" 9000 8000 _
    (init_ok_intro demoKey demoAddr 4 (some 2) "validator" 9000 8000 true
      (by decide) (by decide) (by decide))
    2 (by decide) (by decide) none

/-- C2 counterexample: on a 2-node topology, get_node at the negative index
-1 succeeds by wrapping to the last node instead of failing with
IndexOutOfRange, and get_quorum at index n = 2 succeeds by reducing the
index modulo n instead of failing. -/
theorem accessors_out_of_range_counterexample :
    (StaticNetworkConfig.init demoKey demoAddr 2 (some 1) "validator" 9000 8000
        true).bind (fun cfg => cfg.get_node (-1))
      = .ok { ShortName := "validator-1", Identifier := "ADDR-WIF-1",
              Host := "localhost", Port := 9001, HttpPort := 8001 } ∧
    (StaticNetworkConfig.init demoKey demoAddr 2 (some 1) "validator" 9000 8000
        true).bind (fun cfg => cfg.get_quorum 2 none)
      = .ok (some ["validator-0"]) := by
  rw [init_ok_intro demoKey demoAddr 2 (some 1) "validator" 9000 8000 true
    (by decide) (by decide) (by decide)]
  exact ⟨rfl, rfl⟩

/-- C2 amended: on a constructed topology with n nodes, get_node and
get_key fail with IndexOutOfRange exactly for indices below -n or at least
n; an index in [-n, 0) wraps around to the entry at index + n as Python
indexing does; and get_quorum never fails for any integer target index,
since full-membership mode reduces the index modulo n and fallback mode
ignores it. -/
theorem accessors_index_behavior (gen_key : Nat → String)
    (wif_addr : String → String) (n : Int) (q : Option Int)
    (base_name : String) (base_port base_http_port : Int) (use_quorum : Bool)
    (cfg : StaticNetworkConfig)
    (hinit : StaticNetworkConfig.init gen_key wif_addr n q base_name
        base_port base_http_port use_quorum = .ok cfg) :
    (∀ idx : Int, idx < -n ∨ n ≤ idx →
        cfg.get_node idx = .error .indexOutOfRange ∧
        cfg.get_key idx = .error .indexOutOfRange) ∧
    (∀ idx : Int, -n ≤ idx → idx < 0 →
        cfg.get_node idx = cfg.get_node (idx + n) ∧
        cfg.get_key idx = cfg.get_key (idx + n)) ∧
    (∀ (idx : Int) (dfl : Option (List String)), ∃ r,
        cfg.get_quorum idx dfl = .ok r) := by
  obtain ⟨h1, _, _, hcfg⟩ := init_ok_elim _ _ _ _ _ _ _ _ _ hinit
  subst hcfg
  have hlenN : ((builtConfig gen_key wif_addr n q base_name base_port
      base_http_port use_quorum).nodes.length : Int) = n := by
    simp only [builtConfig, List.length_map, List.length_range]
    omega
  have hlenK : ((builtConfig gen_key wif_addr n q base_name base_port
      base_http_port use_quorum).keys.length : Int) = n := by
    simp only [builtConfig, List.length_map, List.length_range]
    omega
  refine ⟨?_, ?_, ?_⟩
  · intro idx hidx
    constructor
    · exact pyGet_oob _ _ (by omega)
    · exact pyGet_oob _ _ (by omega)
  · intro idx hge hlt
    constructor
    · have hw := pyGet_wrap (builtConfig gen_key wif_addr n q base_name
        base_port base_http_port use_quorum).nodes idx (by omega) hlt
      rw [hlenN] at hw
      exact hw
    · have hw := pyGet_wrap (builtConfig gen_key wif_addr n q base_name
        base_port base_http_port use_quorum).keys idx (by omega) hlt
      rw [hlenK] at hw
      exact hw
  · intro idx dfl
    cases use_quorum with
    | false => exact ⟨none, get_quorum_false _ rfl idx dfl⟩
    | true => exact ⟨_, get_quorum_built_true gen_key wif_addr n q base_name
        base_port base_http_port h1 idx dfl⟩

/-- C2 witness: on the concrete 2-node topology, get_node at index 2 fails
with IndexOutOfRange. -/
theorem accessors_index_behavior_witness :
    StaticNetworkConfig.init demoKey demoAddr 2 (some 1) "validator" 9000 8000
        true = .ok (builtConfig demoKey demoAddr 2 (some 1) "validator" 9000
        8000 true) ∧
    (builtConfig demoKey demoAddr 2 (some 1) "validator" 9000 8000
        true).get_node 2 = .error .indexOutOfRange := by
  have hinit := init_ok_intro demoKey demoAddr 2 (some 1) "validator" 9000 8000
    true (by decide) (by decide) (by decide)
  have h := accessors_index_behavior demoKey demoAddr 2 (some 1) "validator"
    9000 8000 true _ hinit
  exact ⟨hinit, (h.1 2 (by omega)).1⟩

/-- C7 bug evidence: after a refresh from a reading whose virtual-memory
fields differ from the cpu fields, the dictionary serialization maps every
stat-group name, including svmem, sdiskio and snetio, to the cpu
snapshot fields, because the source reads self.cpu_stats._asdict() for
every group. -/
theorem get_data_as_dict_cpu_bug :
    StatsCollector.get_data_as_dict (PlatformStats.initState demoSampleA)
      = [("scpu", demoCpuFields), ("svmem", demoCpuFields),
         ("sdiskio", demoCpuFields), ("snetio", demoCpuFields)] ∧
    demoSampleA.vmem_fields ≠ demoCpuFields := by
  refine ⟨rfl, ?_⟩
  decide

/-- C8: every refresh replaces the whole snapshot list with the four fresh
snapshots of the new reading, the interval byte deltas after two successive
refreshes equal the second reading minus the first, and concretely a
refresh observing 100 bytes sent followed by one observing 150 leaves an
interval delta of exactly 50. -/
theorem get_stats_replaces_snapshots (st : PlatformStatsState) (a b : Sample) :
    (PlatformStats.get_stats st b).statslist
      = [CpuStats b.cpu_percent b.cpu_user b.cpu_system b.cpu_idle,
         { name := "svmem", fields := b.vmem_fields },
         { name := "sdiskio", fields := b.disk_fields },
         b.net.toStat] ∧
    (PlatformStats.get_stats (PlatformStats.get_stats st a) b).interval_net_bytes_sent
      = b.net.bytes_sent - a.net.bytes_sent ∧
    (PlatformStats.get_stats (PlatformStats.get_stats st a) b).interval_net_bytes_recv
      = b.net.bytes_recv - a.net.bytes_recv ∧
    (PlatformStats.get_stats (PlatformStats.initState demoSampleA)
        demoSampleB).interval_net_bytes_sent = 50 := by
  refine ⟨rfl, rfl, rfl, ?_⟩
  show (150 : ℚ) - 100 = 50
  norm_num

/-- C9: the logging configuration loader fails with the unsupported-format
ExitError for every file name whose last dot-separated component is neither
js nor yaml, and logger setup with a log file path whose parent directory
does not exist exits the process with code -1. -/
theorem log_config_error_paths {α : Type}
    (json_load yaml_load : String → Except String α) (f : String)
    (level_of : String → Int) (isdir : String → Bool)
    (dirname : String → String) (config : LogConfig) (p : String)
    (hext1 : (pySplitDot f).getLastD "" ≠ "js")
    (hext2 : (pySplitDot f).getLastD "" ≠ "yaml")
    (hfile : config.LogFile = some p)
    (hscreen : p ≠ "__screen__")
    (hdir : isdir (dirname p) = false) :
    load_log_config json_load yaml_load f
      = .error (.exitError ("LogConfigFile type not supported: " ++ f)) ∧
    setup_loggers level_of isdir dirname config = .exited (-1) := by
  constructor
  · unfold load_log_config
    rw [if_neg hext1, if_neg hext2]
  · unfold setup_loggers
    rw [hfile]
    simp [hscreen, hdir]

/-- C9 witness: a .txt config file is rejected as unsupported, and a log
file under a missing directory makes setup exit with -1. -/
theorem log_config_error_paths_witness :
    load_log_config (fun _ => (.error "io" : Except String Unit))
        (fun _ => .error "io") "logging.txt"
      = .error (.exitError ("LogConfigFile type not supported: " ++ "logging.txt")) ∧
    setup_loggers (fun _ => 0) (fun _ => false) (fun _ => "/nope")
        { LogLevel := none, LogFile := some "/nope/app.log" } = .exited (-1) :=
  log_config_error_paths (fun _ => (.error "io" : Except String Unit))
    (fun _ => .error "io") "logging.txt" (fun _ => 0) (fun _ => false)
    (fun _ => "/nope") { LogLevel := none, LogFile := some "/nope/app.log" }
    "/nope/app.log" (by decide) (by decide) rfl (by decide) rfl

/-- C10: for every byte count the while loop of human_size leaves the
suffix index strictly below the length of the suffixes list, so human_size
terminates and its final suffix access is in range; the returned string is
the formatted value, a space, and the in-range suffix. -/
theorem human_size_index_safe (fmt : ℚ → String) (nbytes : ℚ) :
    ∃ h : (human_size_loop nbytes 0).2 < suffixes.length,
      human_size fmt nbytes
        = if nbytes = 0 then "0 B"
          else fmt (human_size_loop nbytes 0).1 ++ " "
            ++ suffixes.get ⟨(human_size_loop nbytes 0).2, h⟩ := by
  have hb : (human_size_loop nbytes 0).2 < suffixes.length := by
    unfold human_size_loop
    exact human_size_go_index_lt _ nbytes 0 (by decide)
  refine ⟨hb, ?_⟩
  unfold human_size
  by_cases h0 : nbytes = 0
  · rw [if_pos h0, if_pos h0]
  · rw [if_neg h0, if_neg h0]
    dsimp only
    congr 1
    rw [List.getD_eq_getElem _ _ hb]
    rw [List.get_eq_getElem]
